import Mathlib

/-!
# Verification of the Lingu V.2 core (src/app/page.tsx)

A shallow embedding of the spaced-repetition core of the flashcard app:
the card data model, the `schedule` function, the pack-loading dedup merge
(`downloadLanguagePack`), the daily-stat / XP ledger update (`handleReview`),
and the JSON backup gateway (`exportData` / `importData`).

JavaScript numbers are modelled as exact rationals (`ℚ`); `Math.round` is
Mathlib's `round` (half-up, `⌊x + 1/2⌋`), which matches JS `Math.round` on
all inputs.  `Date.now()` is made an explicit `now : ℚ` parameter, and the
random `uid()` stream an explicit `ids : Nat → String` parameter.
-/

namespace Lingu

/-- The four supported target languages (`type Lang` in page.tsx). -/
inductive Lang where
  | EN | ES | FR | RU
deriving DecidableEq

/-- The language code string used in JS string keys and JSON. -/
def langCode : Lang → String
  | .EN => "EN"
  | .ES => "ES"
  | .FR => "FR"
  | .RU => "RU"

/-- `type CardKind = "vocab" | "sentence"`. -/
inductive CardKind where
  | vocab | sentence
deriving DecidableEq

/-- The string representation of a card kind. -/
def kindCode : CardKind → String
  | .vocab => "vocab"
  | .sentence => "sentence"

/-- `type Level` in page.tsx. -/
inductive Level where
  | BEGINNER | INTERMEDIATE | ADVANCED
deriving DecidableEq

/-- The string representation of a level. -/
def levelCode : Level → String
  | .BEGINNER => "BEGINNER"
  | .INTERMEDIATE => "INTERMEDIATE"
  | .ADVANCED => "ADVANCED"

/-- `type Card` in page.tsx.  Timestamps and the scheduling numbers are JS
numbers, modelled as `ℚ`; the optional fields are `Option`. -/
structure Card where
  id : String
  targetLang : Lang
  kind : CardKind
  front : String
  back : String
  «example» : Option String
  exampleTranslation : Option String
  due : ℚ
  intervalDays : ℚ
  ease : ℚ
  lapses : Nat
  lastReviewed : Option ℚ
deriving DecidableEq

/-- `type DailyStat` in page.tsx. -/
structure DailyStat where
  reviewed : Nat
  correct : Nat
  wrong : Nat
  minutes : ℚ
deriving DecidableEq

/-- `type Profile` in page.tsx (`nativeLang` is the literal type `"DE"`,
kept as a string field). -/
structure Profile where
  username : String
  nativeLang : String
  targetLang : Lang
  level : Level
  dailyGoal : Nat
  xp : Nat
  streak : Nat
  bestStreak : Nat
  lastActiveDay : String
  createdAt : ℚ
deriving DecidableEq

/-- `type Achievement` in page.tsx. -/
structure Achievement where
  id : String
  title : String
  desc : String
  icon : String
  unlockedAt : Option ℚ
deriving DecidableEq

/-- `Record<Lang, Record<string, DailyStat>>`: one insertion-ordered record
of day-keyed stats per language (the outer record always has exactly the
four language keys, as initialised on first load). -/
structure StatsByLang where
  en : List (String × DailyStat)
  es : List (String × DailyStat)
  fr : List (String × DailyStat)
  ru : List (String × DailyStat)
deriving DecidableEq

/-- `type AppData` in page.tsx: the aggregate persisted root. -/
structure AppData where
  cards : List Card
  profile : Profile
  achievements : List Achievement
  dailyStatsByLang : StatsByLang
deriving DecidableEq

/-! ## Helpers and SRS logic (page.tsx lines 89-104) -/

/-- `function clamp(n, a, b) { return Math.max(a, Math.min(b, n)); }` -/
def clamp (n a b : ℚ) : ℚ := max a (min b n)

/-- `function schedule(card, correct): Card` (page.tsx lines 92-104), with
the internal `Date.now()` made an explicit `now` parameter.  `Math.round`
is `round` (half-up). -/
def schedule (card : Card) (correct : Bool) (now : ℚ) : Card :=
  let ease : ℚ :=
    if correct then clamp (card.ease + 0.1) 1.3 2.8 else clamp (card.ease - 0.2) 1.3 2.8
  let intervalDays : ℚ :=
    if correct then (if card.intervalDays = 0 then 1 else ((round (card.intervalDays * ease) : ℤ) : ℚ))
    else 0
  { card with
      ease := ease
      intervalDays := intervalDays
      due := now + (if correct then intervalDays else 0.1) * 86400000
      lapses := if correct then card.lapses else card.lapses + 1
      lastReviewed := some now }

/-- Iterating `schedule` over a finite review history: each entry is an
outcome flag paired with the instant of the review. -/
def reviewSeq (card : Card) (rs : List (Bool × ℚ)) : Card :=
  rs.foldl (fun c p => schedule c p.1 p.2) card

/-- A fresh card as produced by pack loading (`intervalDays = 0`,
`ease = 2.0`), used for the concrete scenarios. -/
def freshCard : Card :=
  { id := "w1", targetLang := .EN, kind := .vocab, front := "laufen", back := "to run"
    «example» := none, exampleTranslation := none
    due := 0, intervalDays := 0, ease := 2.0, lapses := 0, lastReviewed := none }

/-! ## Pack loader (page.tsx lines 145-170) -/

/-- The dedup key built at line 164: `` `${c.targetLang}-${c.front}` ``. -/
def cardKey (c : Card) : String := langCode c.targetLang ++ "-" ++ c.front

/-- One candidate card built from a pack entry `(de, x)` (lines 157-158):
fresh scheduling state `due = now`, `intervalDays = 0`, `ease = 2.0`,
`lapses = 0`. -/
def mkPackCard (lang : Lang) (kind : CardKind) (id : String) (now : ℚ)
    (p : String × String) : Card :=
  { id := id, targetLang := lang, kind := kind, front := p.1, back := p.2
    «example» := none, exampleTranslation := none
    due := now, intervalDays := 0, ease := 2.0, lapses := 0, lastReviewed := none }

/-- Candidate cards for one pack list, drawing fresh `uid()` values from the
stream `ids` starting at index `i`. -/
def mkPackCards (lang : Lang) (kind : CardKind) (now : ℚ) (ids : Nat → String) :
    Nat → List (String × String) → List Card
  | _, [] => []
  | i, p :: ps => mkPackCard lang kind (ids i) now p :: mkPackCards lang kind now ids (i + 1) ps

/-- `newCards` (lines 156-159): all vocab candidates then all sentence
candidates. -/
def packCandidates (lang : Lang) (vocab sentences : List (String × String))
    (now : ℚ) (ids : Nat → String) : List Card :=
  mkPackCards lang .vocab now ids 0 vocab
    ++ mkPackCards lang .sentence now ids vocab.length sentences

/-- `filtered` (lines 164-165): the delta to append, dropping every
candidate whose key already occurs among the existing cards. -/
def loadPack (existing : List Card) (lang : Lang) (vocab sentences : List (String × String))
    (now : ℚ) (ids : Nat → String) : List Card :=
  (packCandidates lang vocab sentences now ids).filter
    (fun c => decide (cardKey c ∉ existing.map cardKey))

/-- The `setData` update at line 166: append the filtered delta and switch
the profile's target language. -/
def applyDownload (prev : AppData) (lang : Lang) (vocab sentences : List (String × String))
    (now : ℚ) (ids : Nat → String) : AppData :=
  { prev with
      cards := prev.cards ++ loadPack prev.cards lang vocab sentences now ids
      profile := { prev.profile with targetLang := lang } }

/-- The keys of the candidates depend only on the language and the pack
texts, not on the instant or the id stream. -/
lemma mkPackCards_map_key (lang : Lang) (kind : CardKind) (now : ℚ) (ids : Nat → String) :
    ∀ (i : Nat) (ps : List (String × String)),
      (mkPackCards lang kind now ids i ps).map cardKey
        = ps.map (fun p => langCode lang ++ "-" ++ p.1) := by
  intro i ps
  induction ps generalizing i with
  | nil => rfl
  | cons p ps ih => simp [mkPackCards, cardKey, mkPackCard, ih]

/-- Key list of the full candidate batch, independent of `now` and `ids`. -/
lemma packCandidates_map_key (lang : Lang) (vocab sentences : List (String × String))
    (now : ℚ) (ids : Nat → String) :
    (packCandidates lang vocab sentences now ids).map cardKey
      = vocab.map (fun p => langCode lang ++ "-" ++ p.1)
        ++ sentences.map (fun p => langCode lang ++ "-" ++ p.1) := by
  simp [packCandidates, mkPackCards_map_key]

/-- Every candidate card carries the fresh scheduling state. -/
lemma mem_mkPackCards_fresh (lang : Lang) (kind : CardKind) (now : ℚ) (ids : Nat → String) :
    ∀ (i : Nat) (ps : List (String × String)) (c : Card), c ∈ mkPackCards lang kind now ids i ps →
      c.due = now ∧ c.intervalDays = 0 ∧ c.ease = 2.0 ∧ c.lapses = 0 := by
  intro i ps
  induction ps generalizing i with
  | nil => intro c hc; cases hc
  | cons p ps ih =>
      intro c hc
      rcases List.mem_cons.mp hc with h | h
      · subst h; exact ⟨rfl, rfl, rfl, rfl⟩
      · exact ih _ c h

/-- Every card of the filtered delta carries the fresh scheduling state. -/
lemma mem_loadPack_fresh (existing : List Card) (lang : Lang)
    (vocab sentences : List (String × String)) (now : ℚ) (ids : Nat → String) (c : Card)
    (hc : c ∈ loadPack existing lang vocab sentences now ids) :
    c.due = now ∧ c.intervalDays = 0 ∧ c.ease = 2.0 ∧ c.lapses = 0 := by
  have hmem : c ∈ packCandidates lang vocab sentences now ids :=
    (List.mem_filter.mp hc).1
  rcases List.mem_append.mp hmem with h | h
  · exact mem_mkPackCards_fresh lang .vocab now ids 0 vocab c h
  · exact mem_mkPackCards_fresh lang .sentence now ids vocab.length sentences c h

/-- The initial profile created on first load (page.tsx line 134), at a
fixed day key and creation instant. -/
def initialProfile : Profile :=
  { username := "User", nativeLang := "DE", targetLang := .EN, level := .BEGINNER
    dailyGoal := 10, xp := 0, streak := 0, bestStreak := 0
    lastActiveDay := "2024-01-01", createdAt := 0 }

/-- The empty stats record `{ EN: {}, ES: {}, FR: {}, RU: {} }` (line 136). -/
def emptyStats : StatsByLang := ⟨[], [], [], []⟩

/-- The initial application state (lines 132-137), with an empty
achievement list for brevity of the concrete witnesses. -/
def initialApp : AppData :=
  { cards := [], profile := initialProfile, achievements := [], dailyStatsByLang := emptyStats }

/-- A constant id stream for the concrete witnesses. -/
def constIds : Nat → String := fun _ => "id0"

/-! ## C5, C10: the pack loader -/

/-- C5: pack loading is idempotent — after appending the first delta,
running the loader again with the same language and pack texts (any fresh
instant and id stream) filters every candidate out and yields the empty
delta. -/
theorem spec_c5 (existing : List Card) (lang : Lang) (vocab sentences : List (String × String))
    (n₁ n₂ : ℚ) (ids₁ ids₂ : Nat → String) :
    loadPack (existing ++ loadPack existing lang vocab sentences n₁ ids₁)
      lang vocab sentences n₂ ids₂ = [] := by
  apply List.filter_eq_nil_iff.mpr
  intro c hc
  simp only [decide_eq_true_eq, not_not]
  have hk : cardKey c ∈ (packCandidates lang vocab sentences n₂ ids₂).map cardKey :=
    List.mem_map_of_mem cardKey hc
  rw [packCandidates_map_key] at hk
  rw [← packCandidates_map_key lang vocab sentences n₁ ids₁] at hk
  rcases List.mem_map.mp hk with ⟨c₁, hc₁, hkey⟩
  rw [List.map_append]
  by_cases hmem : cardKey c₁ ∈ existing.map cardKey
  · exact List.mem_append_left _ (hkey ▸ hmem)
  · have hsurv : c₁ ∈ loadPack existing lang vocab sentences n₁ ids₁ :=
      List.mem_filter.mpr ⟨hc₁, by simpa using hmem⟩
    exact List.mem_append_right _ (hkey ▸ List.mem_map_of_mem cardKey hsurv)

/-- C10: loading a pack appends the deduplicated delta, switches
`profile.targetLang` to the loaded language while leaving every other
profile field (and the achievements and stats) unchanged, and every
appended card has `due = now`, `intervalDays = 0`, `ease = 2.0`,
`lapses = 0`. -/
theorem spec_c10 (prev : AppData) (lang : Lang) (vocab sentences : List (String × String))
    (now : ℚ) (ids : Nat → String) (c : Card)
    (hc : c ∈ loadPack prev.cards lang vocab sentences now ids) :
    (applyDownload prev lang vocab sentences now ids).profile
        = { prev.profile with targetLang := lang }
    ∧ (applyDownload prev lang vocab sentences now ids).cards
        = prev.cards ++ loadPack prev.cards lang vocab sentences now ids
    ∧ (applyDownload prev lang vocab sentences now ids).achievements = prev.achievements
    ∧ (applyDownload prev lang vocab sentences now ids).dailyStatsByLang = prev.dailyStatsByLang
    ∧ (c.due = now ∧ c.intervalDays = 0 ∧ c.ease = 2.0 ∧ c.lapses = 0) :=
  ⟨rfl, rfl, rfl, rfl, mem_loadPack_fresh prev.cards lang vocab sentences now ids c hc⟩

/-- Closed witness for `spec_c10`: loading the one-entry EN vocab pack into
the initial (empty-deck) state. -/
theorem spec_c10_witness :
    (mkPackCard .EN .vocab "id0" 0 ("laufen", "to run")
        ∈ loadPack initialApp.cards .EN [("laufen", "to run")] [] 0 constIds)
    ∧ ((applyDownload initialApp .EN [("laufen", "to run")] [] 0 constIds).profile
          = { initialApp.profile with targetLang := .EN }
      ∧ (applyDownload initialApp .EN [("laufen", "to run")] [] 0 constIds).cards
          = initialApp.cards ++ loadPack initialApp.cards .EN [("laufen", "to run")] [] 0 constIds
      ∧ (applyDownload initialApp .EN [("laufen", "to run")] [] 0 constIds).achievements
          = initialApp.achievements
      ∧ (applyDownload initialApp .EN [("laufen", "to run")] [] 0 constIds).dailyStatsByLang
          = initialApp.dailyStatsByLang
      ∧ ((mkPackCard .EN .vocab "id0" 0 ("laufen", "to run")).due = 0
        ∧ (mkPackCard .EN .vocab "id0" 0 ("laufen", "to run")).intervalDays = 0
        ∧ (mkPackCard .EN .vocab "id0" 0 ("laufen", "to run")).ease = 2.0
        ∧ (mkPackCard .EN .vocab "id0" 0 ("laufen", "to run")).lapses = 0)) :=
  have hmem : mkPackCard .EN .vocab "id0" 0 ("laufen", "to run")
      ∈ loadPack initialApp.cards .EN [("laufen", "to run")] [] 0 constIds := by
    simp [loadPack, packCandidates, mkPackCards, initialApp, constIds]
  ⟨hmem, spec_c10 initialApp .EN [("laufen", "to run")] [] 0 constIds _ hmem⟩

/-! ## C1, C2, C4: the scheduler -/

/-- C1: on a correct review, `schedule` bumps the ease by 0.1 (clamped into
[1.3, 2.8]), grows the interval (`1` from `0`, otherwise
`round(intervalDays * ease')`), sets `due = now + intervalDays' * 86400000`,
keeps `lapses`, and stamps `lastReviewed = now`; the fresh-card scenario
gives `(1, 2.1, 86400000)` and then `(2, 2.2, 86400000 + 172800000)`. -/
theorem spec_c1 (c : Card) (t : ℚ)
    (h1 : 1.3 ≤ c.ease) (h2 : c.ease ≤ 2.8) (h3 : 0 ≤ c.intervalDays) :
    ((schedule c true t).ease = clamp (c.ease + 0.1) 1.3 2.8
      ∧ (schedule c true t).intervalDays =
          (if c.intervalDays = 0 then 1
            else ((round (c.intervalDays * clamp (c.ease + 0.1) 1.3 2.8) : ℤ) : ℚ))
      ∧ (schedule c true t).due = t + (schedule c true t).intervalDays * 86400000
      ∧ (schedule c true t).lapses = c.lapses
      ∧ (schedule c true t).lastReviewed = some t)
    ∧ ((schedule freshCard true 0).intervalDays = 1
      ∧ (schedule freshCard true 0).ease = 2.1
      ∧ (schedule freshCard true 0).due = 86400000
      ∧ (schedule (schedule freshCard true 0) true 86400000).intervalDays = 2
      ∧ (schedule (schedule freshCard true 0) true 86400000).ease = 2.2
      ∧ (schedule (schedule freshCard true 0) true 86400000).due = 86400000 + 172800000) := by
  refine ⟨⟨?_, ?_, ?_, ?_, ?_⟩, ⟨?_, ?_, ?_, ?_, ?_, ?_⟩⟩ <;>
    norm_num [schedule, freshCard, clamp, min_def, max_def, round_eq]

/-- Closed witness for `spec_c1` at the fresh card and `t = 0`. -/
theorem spec_c1_witness :
    (1.3 ≤ freshCard.ease ∧ freshCard.ease ≤ 2.8 ∧ 0 ≤ freshCard.intervalDays)
    ∧ (((schedule freshCard true 0).ease = clamp (freshCard.ease + 0.1) 1.3 2.8
      ∧ (schedule freshCard true 0).intervalDays =
          (if freshCard.intervalDays = 0 then 1
            else ((round (freshCard.intervalDays * clamp (freshCard.ease + 0.1) 1.3 2.8) : ℤ) : ℚ))
      ∧ (schedule freshCard true 0).due = 0 + (schedule freshCard true 0).intervalDays * 86400000
      ∧ (schedule freshCard true 0).lapses = freshCard.lapses
      ∧ (schedule freshCard true 0).lastReviewed = some 0)
    ∧ ((schedule freshCard true 0).intervalDays = 1
      ∧ (schedule freshCard true 0).ease = 2.1
      ∧ (schedule freshCard true 0).due = 86400000
      ∧ (schedule (schedule freshCard true 0) true 86400000).intervalDays = 2
      ∧ (schedule (schedule freshCard true 0) true 86400000).ease = 2.2
      ∧ (schedule (schedule freshCard true 0) true 86400000).due = 86400000 + 172800000)) :=
  ⟨by refine ⟨?_, ?_, ?_⟩ <;> norm_num [freshCard],
    spec_c1 freshCard 0 (by norm_num [freshCard]) (by norm_num [freshCard]) (by norm_num [freshCard])⟩

/-- C2: on an incorrect review, `schedule` drops the ease by 0.2 (clamped),
resets the interval to 0, sets `due = now + 0.1 * 86400000`, increments
`lapses`, and stamps `lastReviewed = now`, whatever the prior state. -/
theorem spec_c2 (c : Card) (t : ℚ) :
    (schedule c false t).ease = clamp (c.ease - 0.2) 1.3 2.8
    ∧ (schedule c false t).intervalDays = 0
    ∧ (schedule c false t).due = t + 0.1 * 86400000
    ∧ (schedule c false t).lapses = c.lapses + 1
    ∧ (schedule c false t).lastReviewed = some t := by
  refine ⟨?_, ?_, ?_, ?_, ?_⟩ <;> simp [schedule]

/-- C4: `schedule` is a deterministic, pure, total function of the card,
the outcome flag and the instant: equal inputs give equal output cards
(and, values being immutable here, the input card is untouched). -/
theorem spec_c4 (c₁ c₂ : Card) (b₁ b₂ : Bool) (t₁ t₂ : ℚ)
    (hc : c₁ = c₂) (hb : b₁ = b₂) (ht : t₁ = t₂) :
    schedule c₁ b₁ t₁ = schedule c₂ b₂ t₂ := by
  subst hc; subst hb; subst ht; rfl

/-! ## C3: the ease invariant -/

/-- `clamp` lands in `[1.3, 2.8]` whatever its input. -/
lemma clamp_mem (x : ℚ) : 1.3 ≤ clamp x 1.3 2.8 ∧ clamp x 1.3 2.8 ≤ 2.8 := by
  constructor
  · exact le_max_left _ _
  · exact max_le (by norm_num) (min_le_left _ _)

/-- One review, correct or not, leaves the ease inside `[1.3, 2.8]`. -/
lemma schedule_ease_mem (c : Card) (b : Bool) (t : ℚ) :
    1.3 ≤ (schedule c b t).ease ∧ (schedule c b t).ease ≤ 2.8 := by
  cases b <;> simpa [schedule] using clamp_mem _

/-- A correct review never lowers the ease of a card whose ease is ≤ 2.8. -/
lemma ease_le_schedule_true (c : Card) (t : ℚ) (h2 : c.ease ≤ 2.8) :
    c.ease ≤ (schedule c true t).ease := by
  have : c.ease ≤ min 2.8 (c.ease + 0.1) := le_min h2 (by linarith)
  simpa [schedule, clamp] using this.trans (le_max_right 1.3 _)

/-- Iterated reviews keep the ease inside `[1.3, 2.8]`. -/
lemma reviewSeq_ease_mem (rs : List (Bool × ℚ)) :
    ∀ c : Card, 1.3 ≤ c.ease → c.ease ≤ 2.8 →
      1.3 ≤ (reviewSeq c rs).ease ∧ (reviewSeq c rs).ease ≤ 2.8 := by
  induction rs with
  | nil => exact fun c h1 h2 => ⟨h1, h2⟩
  | cons p ps ih =>
      intro c h1 h2
      exact ih (schedule c p.1 p.2) (schedule_ease_mem c p.1 p.2).1 (schedule_ease_mem c p.1 p.2).2

/-- Along an all-correct review sequence the ease never decreases. -/
lemma ease_mono_all_correct (rs : List (Bool × ℚ)) :
    ∀ c : Card, c.ease ≤ 2.8 → (∀ p ∈ rs, p.1 = true) → c.ease ≤ (reviewSeq c rs).ease := by
  induction rs with
  | nil => exact fun c _ _ => le_refl _
  | cons p ps ih =>
      intro c h2 hall
      have hp : p.1 = true := hall p (List.mem_cons_self _ _)
      have step : c.ease ≤ (schedule c p.1 p.2).ease := by
        rw [hp]; exact ease_le_schedule_true c p.2 h2
      have tail : (schedule c p.1 p.2).ease ≤ (reviewSeq (schedule c p.1 p.2) ps).ease :=
        ih (schedule c p.1 p.2) (schedule_ease_mem c p.1 p.2).2
          (fun q hq => hall q (List.mem_cons_of_mem _ hq))
      exact step.trans tail

/-- C3: starting from a well-formed ease, iterating `schedule` over any
review history keeps the ease in `[1.3, 2.8]`; over an all-correct history
the ease is non-decreasing (and still bounded by 2.8); and a single
incorrect review never takes the ease below 1.3. -/
theorem spec_c3 (c : Card) (h1 : 1.3 ≤ c.ease) (h2 : c.ease ≤ 2.8)
    (rs rs' : List (Bool × ℚ)) (hall : ∀ p ∈ rs', p.1 = true) (c' : Card) (t : ℚ) :
    (1.3 ≤ (reviewSeq c rs).ease ∧ (reviewSeq c rs).ease ≤ 2.8)
    ∧ (c.ease ≤ (reviewSeq c rs').ease ∧ (reviewSeq c rs').ease ≤ 2.8)
    ∧ 1.3 ≤ (schedule c' false t).ease :=
  ⟨reviewSeq_ease_mem rs c h1 h2,
    ⟨ease_mono_all_correct rs' c h2 hall, (reviewSeq_ease_mem rs' c h1 h2).2⟩,
    (schedule_ease_mem c' false t).1⟩

/-- Closed witness for `spec_c3` at the fresh card with a concrete
mixed history and a concrete all-correct history. -/
theorem spec_c3_witness :
    (1.3 ≤ freshCard.ease ∧ freshCard.ease ≤ 2.8
      ∧ (∀ p ∈ [((true : Bool), (0 : ℚ)), (true, 86400000)], p.1 = true))
    ∧ ((1.3 ≤ (reviewSeq freshCard [(true, 0), (false, 86400000)]).ease
        ∧ (reviewSeq freshCard [(true, 0), (false, 86400000)]).ease ≤ 2.8)
      ∧ (freshCard.ease ≤ (reviewSeq freshCard [(true, 0), (true, 86400000)]).ease
        ∧ (reviewSeq freshCard [(true, 0), (true, 86400000)]).ease ≤ 2.8)
      ∧ 1.3 ≤ (schedule freshCard false 5).ease) :=
  ⟨⟨by norm_num [freshCard], by norm_num [freshCard], by intro p hp; fin_cases hp <;> rfl⟩,
    spec_c3 freshCard (by norm_num [freshCard]) (by norm_num [freshCard])
      [(true, 0), (false, 86400000)] [(true, 0), (true, 86400000)]
      (by intro p hp; fin_cases hp <;> rfl) freshCard 5⟩

/-- Closed witness for `spec_c4` at concrete equal inputs. -/
theorem spec_c4_witness :
    (freshCard = freshCard ∧ (true = true) ∧ ((5 : ℚ) = 5))
    ∧ schedule freshCard true 5 = schedule freshCard true 5 :=
  ⟨⟨rfl, rfl, rfl⟩, spec_c4 freshCard freshCard true true 5 5 rfl rfl rfl⟩

/-! ## Progress ledger (page.tsx lines 172-186) -/

/-- Property lookup in one language's day-keyed stat record. -/
def getDay : List (String × DailyStat) → String → Option DailyStat
  | [], _ => none
  | (k, v) :: rest, day => if k = day then some v else getDay rest day

/-- JS property assignment `record[day] = v`: overwrite in place when the
key exists, otherwise append the new key. -/
def setDay : List (String × DailyStat) → String → DailyStat → List (String × DailyStat)
  | [], day, v => [(day, v)]
  | (k, w) :: rest, day, v =>
      if k = day then (day, v) :: rest else (k, w) :: setDay rest day v

/-- Indexing the per-language record `stats[lang]`. -/
def StatsByLang.get (s : StatsByLang) : Lang → List (String × DailyStat)
  | .EN => s.en
  | .ES => s.es
  | .FR => s.fr
  | .RU => s.ru

/-- Writing back one language's record. -/
def StatsByLang.set (s : StatsByLang) : Lang → List (String × DailyStat) → StatsByLang
  | .EN, l => { s with en := l }
  | .ES, l => { s with es := l }
  | .FR, l => { s with fr := l }
  | .RU, l => { s with ru := l }

/-- The zero stat created lazily at line 182:
`{ reviewed: 0, correct: 0, wrong: 0, minutes: 0 }`. -/
def zeroStat : DailyStat := { reviewed := 0, correct := 0, wrong := 0, minutes := 0 }

/-- The ledger/profile part of `handleReview` (page.tsx lines 179-185):
bump the day stat of the current language and day key, and the profile
`xp` (+10 correct, +2 incorrect).  No other profile field is touched. -/
def recordReview (stats : StatsByLang) (profile : Profile) (lang : Lang) (day : String)
    (correct : Bool) : StatsByLang × Profile :=
  let dayStat := (getDay (stats.get lang) day).getD zeroStat
  let updated :=
    { dayStat with
        reviewed := dayStat.reviewed + 1
        correct := dayStat.correct + (if correct then 1 else 0) }
  (stats.set lang (setDay (stats.get lang) day updated),
    { profile with xp := profile.xp + (if correct then 10 else 2) })

/-- A sequence of reviews on a fixed language and day key. -/
def recordSeq (lang : Lang) (day : String) (start : StatsByLang × Profile)
    (rs : List Bool) : StatsByLang × Profile :=
  rs.foldl (fun sp b => recordReview sp.1 sp.2 lang day b) start

/-- Looking up the day key just written returns the written stat. -/
lemma getDay_setDay (l : List (String × DailyStat)) (day : String) (v : DailyStat) :
    getDay (setDay l day v) day = some v := by
  induction l with
  | nil => simp [setDay, getDay]
  | cons kv rest ih =>
      by_cases h : kv.1 = day
      · simp [setDay, getDay, h]
      · simp [setDay, getDay, h, ih]

/-- Reading back the language record just written. -/
lemma StatsByLang.get_set (s : StatsByLang) (lang : Lang) (l : List (String × DailyStat)) :
    (s.set lang l).get lang = l := by
  cases lang <;> rfl

/-! ## C6: daily stat accumulation and XP -/

/-- C6: recording a review updates the (lang, dayKey) stat from its prior
value (the zero stat when absent): `reviewed` + 1 always, `correct` + 1
exactly on a correct review, `wrong`/`minutes` untouched; `xp` gains 10 on
correct and 2 on incorrect; and 3 correct plus 2 incorrect reviews on one
(language, day) starting from the empty ledger give `reviewed = 5`,
`correct = 3`. -/
theorem spec_c6 (stats : StatsByLang) (profile : Profile) (lang : Lang) (day : String)
    (b : Bool) :
    (getDay (((recordReview stats profile lang day b).1).get lang) day
      = some { (getDay (stats.get lang) day).getD zeroStat with
                reviewed := ((getDay (stats.get lang) day).getD zeroStat).reviewed + 1
                correct := ((getDay (stats.get lang) day).getD zeroStat).correct
                  + (if b then 1 else 0) }
      ∧ (recordReview stats profile lang day b).2.xp
          = profile.xp + (if b then 10 else 2))
    ∧ getDay (((recordSeq .EN "2024-01-01" (emptyStats, initialProfile)
          [true, true, true, false, false]).1).get .EN) "2024-01-01"
        = some { reviewed := 5, correct := 3, wrong := 0, minutes := 0 } := by
  refine ⟨⟨?_, rfl⟩, rfl⟩
  simp only [recordReview]
  rw [StatsByLang.get_set, getDay_setDay]

/-! ## C9: the day-boundary streak transition -/

/-- A profile mid-streak, last active on 2024-01-01. -/
def boundaryProfile : Profile := { initialProfile with streak := 3, bestStreak := 3 }

/-- C9 (refuting the claim on the code): `handleReview` performs no
day-boundary transition at all — `streak`, `bestStreak` and
`lastActiveDay` are left unchanged by every recorded review; in
particular a review recorded on 2024-01-02, one calendar day after
`lastActiveDay = "2024-01-01"`, leaves `streak = 3` instead of
incrementing it to 4 and leaves `lastActiveDay = "2024-01-01"`. -/
theorem spec_c9 :
    (∀ (stats : StatsByLang) (profile : Profile) (lang : Lang) (day : String) (b : Bool),
      (recordReview stats profile lang day b).2.streak = profile.streak
      ∧ (recordReview stats profile lang day b).2.bestStreak = profile.bestStreak
      ∧ (recordReview stats profile lang day b).2.lastActiveDay = profile.lastActiveDay)
    ∧ (boundaryProfile.lastActiveDay = "2024-01-01"
      ∧ (("2024-01-02" : String) == "2024-01-01") = false
      ∧ boundaryProfile.streak = 3
      ∧ (recordReview emptyStats boundaryProfile .EN "2024-01-02" true).2.streak = 3
      ∧ (recordReview emptyStats boundaryProfile .EN "2024-01-02" true).2.bestStreak = 3
      ∧ (recordReview emptyStats boundaryProfile .EN "2024-01-02" true).2.lastActiveDay
          = "2024-01-01") :=
  ⟨fun _ _ _ _ _ => ⟨rfl, rfl, rfl⟩, ⟨rfl, rfl, rfl, rfl, rfl, rfl⟩⟩

/-! ## Persistence gateway (page.tsx lines 188-209)

`exportData` emits `JSON.stringify(data)`; `importData` runs `JSON.parse`
on the chosen file and adopts the parsed value wholesale via `setData`
(only a parse exception is caught).  JSON values are modelled as trees;
the platform `JSON.stringify` / `JSON.parse` pair is the identity on such
trees, so the backup blob is modelled as the tree itself. -/

/-- A JSON value. -/
inductive Json where
  | null
  | bool (b : Bool)
  | num (q : ℚ)
  | str (s : String)
  | arr (elems : List Json)
  | obj (fields : List (String × Json))

/-- Property lookup in a JSON object field list (first match). -/
def lookupField : List (String × Json) → String → Option Json
  | [], _ => none
  | (k', v) :: rest, k => if k' = k then some v else lookupField rest k

/-- Property lookup on a JSON value: `none` on non-objects. -/
def getObjField : Json → String → Option Json
  | .obj fs, k => lookupField fs k
  | _, _ => none

/-- Whether a JSON value is an object carrying the given key. -/
def hasKey (j : Json) (k : String) : Bool :=
  match getObjField j k with
  | some _ => true
  | none => false

/-- An optional JS property: `JSON.stringify` drops absent fields. -/
def optField (k : String) : Option Json → List (String × Json)
  | none => []
  | some j => [(k, j)]

/-- The `JSON.stringify` image of a card (field shape of `type Card` and
of the object literals in page.tsx). -/
def encodeCard (c : Card) : Json :=
  .obj ([("id", .str c.id), ("targetLang", .str (langCode c.targetLang)),
      ("kind", .str (kindCode c.kind)), ("front", .str c.front), ("back", .str c.back)]
    ++ optField "example" (c.«example».map .str)
    ++ optField "exampleTranslation" (c.exampleTranslation.map .str)
    ++ [("due", .num c.due), ("intervalDays", .num c.intervalDays),
      ("ease", .num c.ease), ("lapses", .num (c.lapses : ℚ))]
    ++ optField "lastReviewed" (c.lastReviewed.map .num))

/-- The `JSON.stringify` image of a profile. -/
def encodeProfile (p : Profile) : Json :=
  .obj [("username", .str p.username), ("nativeLang", .str p.nativeLang),
    ("targetLang", .str (langCode p.targetLang)), ("level", .str (levelCode p.level)),
    ("dailyGoal", .num (p.dailyGoal : ℚ)), ("xp", .num (p.xp : ℚ)),
    ("streak", .num (p.streak : ℚ)), ("bestStreak", .num (p.bestStreak : ℚ)),
    ("lastActiveDay", .str p.lastActiveDay), ("createdAt", .num p.createdAt)]

/-- The `JSON.stringify` image of an achievement. -/
def encodeAchievement (a : Achievement) : Json :=
  .obj ([("id", .str a.id), ("title", .str a.title), ("desc", .str a.desc),
      ("icon", .str a.icon)]
    ++ optField "unlockedAt" (a.unlockedAt.map .num))

/-- The `JSON.stringify` image of one daily stat. -/
def encodeDailyStat (d : DailyStat) : Json :=
  .obj [("reviewed", .num (d.reviewed : ℚ)), ("correct", .num (d.correct : ℚ)),
    ("wrong", .num (d.wrong : ℚ)), ("minutes", .num d.minutes)]

/-- The `JSON.stringify` image of one language's day-keyed stat record. -/
def encodeDayRec (l : List (String × DailyStat)) : Json :=
  .obj (l.map fun kv => (kv.1, encodeDailyStat kv.2))

/-- The `JSON.stringify` image of `dailyStatsByLang`. -/
def encodeStats (s : StatsByLang) : Json :=
  .obj [("EN", encodeDayRec s.en), ("ES", encodeDayRec s.es),
    ("FR", encodeDayRec s.fr), ("RU", encodeDayRec s.ru)]

/-- `serialize`: the backup blob `exportData` produces
(`JSON.stringify(data)`, as a JSON tree). -/
def encodeAppData (x : AppData) : Json :=
  .obj [("cards", .arr (x.cards.map encodeCard)),
    ("profile", encodeProfile x.profile),
    ("achievements", .arr (x.achievements.map encodeAchievement)),
    ("dailyStatsByLang", encodeStats x.dailyStatsByLang)]

/-- A JSON string read back as a Lean string. -/
def asStr : Option Json → Option String
  | some (.str s) => some s
  | _ => none

/-- A JSON number read back as a rational. -/
def asNum : Option Json → Option ℚ
  | some (.num q) => some q
  | _ => none

/-- A JSON array read back as its element list. -/
def asArr : Option Json → Option (List Json)
  | some (.arr es) => some es
  | _ => none

/-- A JSON number read back as a natural count (rejecting fractions and
negatives). -/
def ratToNat (q : ℚ) : Option Nat :=
  if q.den = 1 ∧ 0 ≤ q.num then some q.num.toNat else none

/-- A JSON number field read back as a natural count. -/
def asNat (j : Option Json) : Option Nat := (asNum j).bind ratToNat

/-- An absent-or-string field read back. -/
def decOptStr : Option Json → Option (Option String)
  | none => some none
  | some (.str s) => some (some s)
  | _ => none

/-- An absent-or-number field read back. -/
def decOptNum : Option Json → Option (Option ℚ)
  | none => some none
  | some (.num q) => some (some q)
  | _ => none

/-- A language code read back. -/
def decLang (s : String) : Option Lang :=
  if s = "EN" then some .EN
  else if s = "ES" then some .ES
  else if s = "FR" then some .FR
  else if s = "RU" then some .RU
  else none

/-- A card kind read back. -/
def decKind (s : String) : Option CardKind :=
  if s = "vocab" then some .vocab
  else if s = "sentence" then some .sentence
  else none

/-- A level read back. -/
def decLevel (s : String) : Option Level :=
  if s = "BEGINNER" then some .BEGINNER
  else if s = "INTERMEDIATE" then some .INTERMEDIATE
  else if s = "ADVANCED" then some .ADVANCED
  else none

/-- Modelled from the spec: the gateway's card read-back (§4.5 requires
`deserialize` to rebuild the typed value; src's `importData` adopts the
parsed JSON without any such read-back). -/
def decodeCard (j : Json) : Option Card := do
  let id ← asStr (getObjField j "id")
  let lang ← decLang (← asStr (getObjField j "targetLang"))
  let kind ← decKind (← asStr (getObjField j "kind"))
  let front ← asStr (getObjField j "front")
  let back ← asStr (getObjField j "back")
  let ex ← decOptStr (getObjField j "example")
  let exT ← decOptStr (getObjField j "exampleTranslation")
  let due ← asNum (getObjField j "due")
  let intervalDays ← asNum (getObjField j "intervalDays")
  let ease ← asNum (getObjField j "ease")
  let lapses ← asNat (getObjField j "lapses")
  let lastReviewed ← decOptNum (getObjField j "lastReviewed")
  pure { id := id, targetLang := lang, kind := kind, front := front, back := back
         «example» := ex, exampleTranslation := exT
         due := due, intervalDays := intervalDays, ease := ease
         lapses := lapses, lastReviewed := lastReviewed }

/-- Modelled from the spec: the gateway's profile read-back. -/
def decodeProfile (j : Json) : Option Profile := do
  let username ← asStr (getObjField j "username")
  let nativeLang ← asStr (getObjField j "nativeLang")
  let targetLang ← decLang (← asStr (getObjField j "targetLang"))
  let level ← decLevel (← asStr (getObjField j "level"))
  let dailyGoal ← asNat (getObjField j "dailyGoal")
  let xp ← asNat (getObjField j "xp")
  let streak ← asNat (getObjField j "streak")
  let bestStreak ← asNat (getObjField j "bestStreak")
  let lastActiveDay ← asStr (getObjField j "lastActiveDay")
  let createdAt ← asNum (getObjField j "createdAt")
  pure { username := username, nativeLang := nativeLang, targetLang := targetLang
         level := level, dailyGoal := dailyGoal, xp := xp, streak := streak
         bestStreak := bestStreak, lastActiveDay := lastActiveDay, createdAt := createdAt }

/-- Modelled from the spec: the gateway's achievement read-back. -/
def decodeAchievement (j : Json) : Option Achievement := do
  let id ← asStr (getObjField j "id")
  let title ← asStr (getObjField j "title")
  let desc ← asStr (getObjField j "desc")
  let icon ← asStr (getObjField j "icon")
  let unlockedAt ← decOptNum (getObjField j "unlockedAt")
  pure { id := id, title := title, desc := desc, icon := icon, unlockedAt := unlockedAt }

/-- Modelled from the spec: the gateway's daily-stat read-back. -/
def decodeDailyStat (j : Json) : Option DailyStat := do
  let reviewed ← asNat (getObjField j "reviewed")
  let correct ← asNat (getObjField j "correct")
  let wrong ← asNat (getObjField j "wrong")
  let minutes ← asNum (getObjField j "minutes")
  pure { reviewed := reviewed, correct := correct, wrong := wrong, minutes := minutes }

/-- Read back every field of a day-keyed record, keeping the keys. -/
def decodeDayFields : List (String × Json) → Option (List (String × DailyStat))
  | [] => some []
  | (k, v) :: rest => do
      let d ← decodeDailyStat v
      let ds ← decodeDayFields rest
      pure ((k, d) :: ds)

/-- Modelled from the spec: one language's stat record read back. -/
def decodeDayRec (j : Option Json) : Option (List (String × DailyStat)) :=
  match j with
  | some (.obj fs) => decodeDayFields fs
  | _ => none

/-- Modelled from the spec: the `dailyStatsByLang` mapping read back. -/
def decodeStats (j : Json) : Option StatsByLang := do
  let en ← decodeDayRec (getObjField j "EN")
  let es ← decodeDayRec (getObjField j "ES")
  let fr ← decodeDayRec (getObjField j "FR")
  let ru ← decodeDayRec (getObjField j "RU")
  pure ⟨en, es, fr, ru⟩

/-- Read back a homogeneous JSON array element by element. -/
def decodeList (dec : Json → Option α) : List Json → Option (List α)
  | [] => some []
  | j :: js => do
      let a ← dec j
      let as ← decodeList dec js
      pure (a :: as)

/-- Modelled from the spec: `deserialize` (§4.5) — rebuild the `AppData`
aggregate from a parsed backup, failing on any top-level or nested shape
mismatch (src's `importData` performs no such validation). -/
def decodeAppData (j : Json) : Option AppData := do
  let cs ← asArr (getObjField j "cards")
  let cards ← decodeList decodeCard cs
  let profile ← decodeProfile (← getObjField j "profile")
  let as ← asArr (getObjField j "achievements")
  let achievements ← decodeList decodeAchievement as
  let stats ← decodeStats (← getObjField j "dailyStatsByLang")
  pure { cards := cards, profile := profile, achievements := achievements
         dailyStatsByLang := stats }

/-- `importData` (page.tsx lines 197-209) after `JSON.parse` has run on the
chosen file: the parse outcome is passed explicitly (`none` = parse threw).
On success the parsed value is adopted wholesale by `setData` with no shape
validation (flag `true` = the success alert); only a parse failure is
caught, keeping the previous state (flag `false` = the error alert). -/
def importParsed (parsed : Option Json) (prev : Json) : Json × Bool :=
  match parsed with
  | some j => (j, true)
  | none => (prev, false)

/-! ## C7, C8: round trip and import validation -/

/-- Card read-back inverts the card image. -/
lemma decodeCard_encodeCard (c : Card) : decodeCard (encodeCard c) = some c := by
  obtain ⟨id, lang, kind, front, back, ex, exT, due, iv, ease, lapses, lastR⟩ := c
  cases lang <;> cases kind <;> cases ex <;> cases exT <;> cases lastR <;> rfl

/-- Profile read-back inverts the profile image. -/
lemma decodeProfile_encodeProfile (p : Profile) :
    decodeProfile (encodeProfile p) = some p := by
  obtain ⟨username, nativeLang, lang, level, dailyGoal, xp, streak, bestStreak, lastDay, created⟩ := p
  cases lang <;> cases level <;> rfl

/-- Achievement read-back inverts the achievement image. -/
lemma decodeAchievement_encodeAchievement (a : Achievement) :
    decodeAchievement (encodeAchievement a) = some a := by
  obtain ⟨id, title, desc, icon, unlockedAt⟩ := a
  cases unlockedAt <;> rfl

/-- Daily-stat read-back inverts the daily-stat image. -/
lemma decodeDailyStat_encodeDailyStat (d : DailyStat) :
    decodeDailyStat (encodeDailyStat d) = some d := rfl

/-- Day-record read-back inverts the day-record image. -/
lemma decodeDayFields_map (l : List (String × DailyStat)) :
    decodeDayFields (l.map fun kv => (kv.1, encodeDailyStat kv.2)) = some l := by
  induction l with
  | nil => rfl
  | cons kv rest ih =>
      simp [decodeDayFields, decodeDailyStat_encodeDailyStat, ih]

/-- Card-list read-back inverts the card-list image. -/
lemma decodeList_map_card (l : List Card) :
    decodeList decodeCard (l.map encodeCard) = some l := by
  induction l with
  | nil => rfl
  | cons c rest ih => simp [decodeList, decodeCard_encodeCard, ih]

/-- Achievement-list read-back inverts the achievement-list image. -/
lemma decodeList_map_achievement (l : List Achievement) :
    decodeList decodeAchievement (l.map encodeAchievement) = some l := by
  induction l with
  | nil => rfl
  | cons a rest ih => simp [decodeList, decodeAchievement_encodeAchievement, ih]

/-- Stats read-back inverts the stats image. -/
lemma decodeStats_encodeStats (s : StatsByLang) :
    decodeStats (encodeStats s) = some s := by
  obtain ⟨en, es, fr, ru⟩ := s
  simp [encodeStats, decodeStats, getObjField, lookupField, decodeDayRec, encodeDayRec,
    decodeDayFields_map]

/-- C7: round trip — deserializing a serialized `AppData` value recovers
the value exactly (id strings and numeric fields preserved; records
compared by value). -/
theorem spec_c7 (x : AppData) : decodeAppData (encodeAppData x) = some x := by
  obtain ⟨cards, profile, achievements, stats⟩ := x
  simp [encodeAppData, decodeAppData, getObjField, lookupField, asArr,
    decodeList_map_card, decodeList_map_achievement,
    decodeProfile_encodeProfile, decodeStats_encodeStats]

/-- A structurally valid backup that lacks the `profile` field. -/
def noProfileBackup : Json :=
  .obj [("cards", .arr []), ("achievements", .arr []),
    ("dailyStatsByLang", .obj [("EN", .obj []), ("ES", .obj []),
      ("FR", .obj []), ("RU", .obj [])])]

/-- C8 (refuting the claim on the code): a parseable backup with no
`profile` key is adopted wholesale by `importData` with the success
alert — no shape validation happens and the prior state is replaced by
the partial data — even though the gateway read-back rejects that value. -/
theorem spec_c8 :
    hasKey noProfileBackup "profile" = false
    ∧ importParsed (some noProfileBackup) (encodeAppData initialApp)
        = (noProfileBackup, true)
    ∧ decodeAppData noProfileBackup = none :=
  ⟨rfl, rfl, rfl⟩

end Lingu
